import Mathlib

/-!
# Port prober: the worker loop, the probe and the job source of `main.go`

A shallow embedding of `src/main.go`.

* The network is explicit state: the client's `DoTimeout` takes the state of the
  outside world `σ` and returns the new one, so the same URL may answer
  differently at two different moments.
* Standard output and the calls to `isAlive` are recorded, in program order, in
  one list of events carried by the worker.
* Go strings are Lean strings; Go `int` is `Int` (no arithmetic is done on it).
-/

namespace Prober

/-! ## Data model -/

/-- The `job` struct of `main.go`: a domain and the ports to try on it. -/
structure job where
  domain : String
  ports : List String
  deriving DecidableEq, Repr

/-- A `time.Duration`, in nanoseconds. -/
abbrev Duration := Int

/-- The part of `fasthttp.Request` that `isAlive` sets. -/
structure Request where
  uri : String
  method : String
  deriving DecidableEq, Repr

/-- The part of `fasthttp.Response` that `isAlive` reads: what `StatusCode()` gives. -/
structure Response where
  StatusCode : Int
  deriving DecidableEq, Repr

/-- The `fasthttp.Client`, as far as `isAlive` uses it: `DoTimeout` runs a request
against the outside world `σ` and gives back an error (`none` for Go `nil`), the
filled response and the outside world afterwards. The library is not part of the
repository, so it is a parameter. -/
structure Client (σ ε : Type) where
  DoTimeout : σ → Request → Duration → (Option ε × Response) × σ

/-- What a worker does that can be seen from outside, in program order. -/
inductive Event where
  /-- One call `isAlive(client, url, timeout)` and the value it returned. -/
  | probe (url : String) (status : Int)
  /-- One `fmt.Printf`: the text written to standard output. -/
  | print (text : String)
  deriving DecidableEq, Repr

/-- The variables a worker carries through its loops: the `status` variable
declared before the loops, the outside world, and the events so far. -/
structure WorkerState (σ : Type) where
  status : Int
  net : σ
  trace : List Event

/-! ## Library functions used by the program -/

/-- Go `strings.HasPrefix(s, pre)`. -/
def HasPrefix (s pre : String) : Bool :=
  pre.data.isPrefixOf s.data

/-- Go `%d` of an `int`: decimal digits, with a leading minus sign when negative. -/
def formatInt (n : Int) : String :=
  toString n

/-- Go `fmt.Sprintf("%s:%s", a, b)`. -/
def sprintfColon (a b : String) : String :=
  a ++ ":" ++ b

/-- Go `fmt.Sprintf("https://%s:%s", a, b)`. -/
def sprintfHttps (a b : String) : String :=
  "https://" ++ a ++ ":" ++ b

/-- Go `fmt.Sprintf("http://%s:%s", a, b)`. -/
def sprintfHttp (a b : String) : String :=
  "http://" ++ a ++ ":" ++ b

/-- The text of Go `fmt.Printf("%s %d\n", url, status)`. -/
def printfLine (url : String) (status : Int) : String :=
  url ++ " " ++ formatInt status ++ "\n"

/-- Go `fasthttp.AcquireRequest()`: an empty request. -/
def AcquireRequest : Request :=
  { uri := "", method := "" }

/-- Go `req.SetRequestURI(url)`. -/
def Request.SetRequestURI (req : Request) (url : String) : Request :=
  { req with uri := url }

/-- Go `req.Header.SetMethod(m)`. -/
def Request.SetMethod (req : Request) (m : String) : Request :=
  { req with method := m }

/-! ## The program -/

section Program

variable {σ ε : Type}

/-- The function `isAlive` of `main.go`: one GET with a timeout; `0` on any error,
the status code of the response otherwise. -/
def isAlive (client : Client σ ε) (net : σ) (url : String) (timeout : Duration) :
    Int × σ :=
  let req := (AcquireRequest.SetRequestURI url).SetMethod "GET"
  match client.DoTimeout net req timeout with
  | ((some _, _), net1) => (0, net1)
  | ((none, resp), net1) => (resp.StatusCode, net1)

/-- The body of the inner loop of `worker` (`for _, port := range j.ports`),
for one port. -/
def portBody (client : Client σ ε) (timeout : Duration) (domain : String)
    (st : WorkerState σ) (port : String) : WorkerState σ :=
  if HasPrefix domain "http" then
    let httpsURL := sprintfColon domain port
    let r := isAlive client st.net httpsURL timeout
    let tr := st.trace ++ [Event.probe httpsURL r.1]
    if r.1 ≠ 0 then
      { status := r.1, net := r.2, trace := tr ++ [Event.print (printfLine httpsURL r.1)] }
    else
      { status := r.1, net := r.2, trace := tr }
  else
    let httpsURL := sprintfHttps domain port
    let r := isAlive client st.net httpsURL timeout
    let tr := st.trace ++ [Event.probe httpsURL r.1]
    if r.1 ≠ 0 then
      { status := r.1, net := r.2, trace := tr ++ [Event.print (printfLine httpsURL r.1)] }
    else
      let httpURL := sprintfHttp domain port
      let r2 := isAlive client r.2 httpURL timeout
      let tr2 := tr ++ [Event.probe httpURL r2.1]
      if r2.1 ≠ 0 then
        { status := r2.1, net := r2.2, trace := tr2 ++ [Event.print (printfLine httpURL r2.1)] }
      else
        { status := r2.1, net := r2.2, trace := tr2 }

/-- The body of the outer loop of `worker` (`for j := range jobs`), for one job. -/
def jobBody (client : Client σ ε) (timeout : Duration) (st : WorkerState σ) (j : job) :
    WorkerState σ :=
  j.ports.foldl (portBody client timeout j.domain) st

/-- The function `worker` of `main.go`, on the jobs it receives from the channel,
in the order it receives them. -/
def worker (client : Client σ ε) (timeout : Duration) (net : σ) (jobs : List job) :
    WorkerState σ :=
  jobs.foldl (jobBody client timeout) { status := 0, net := net, trace := [] }

end Program

/-- The function `main` of `main.go`, as the job source: `ports` is the port list
parsed from the flags, `lines` are the tokens the scanner yields one after the
other, and the result is the jobs sent on the channel, in the order of sending
(`sent` is what has been sent so far). -/
def main (ports : List String) (lines : List String) : List job :=
  lines.foldl
    (fun sent domain => if domain = "" then sent else sent ++ [{ domain := domain, ports := ports }])
    []

/-! ## Reading a trace -/

/-- The URLs probed, in order. -/
def probedURLs : List Event → List String
  | [] => []
  | Event.probe url _ :: es => url :: probedURLs es
  | Event.print _ :: es => probedURLs es

/-- The text written to standard output, one entry per `Printf`, in order. -/
def printed : List Event → List String
  | [] => []
  | Event.probe _ _ :: es => printed es
  | Event.print text :: es => text :: printed es

/-- The probes made, each with the status it returned, in order. -/
def probes : List Event → List (String × Int)
  | [] => []
  | Event.probe url status :: es => (url, status) :: probes es
  | Event.print _ :: es => probes es

/-- One probe reported faithfully: the probe, directly followed by the line
`url status` when the status is not `0`, and by nothing otherwise. -/
def reported (url : String) (status : Int) : List Event :=
  Event.probe url status ::
    (if status ≠ 0 then [Event.print (url ++ " " ++ formatInt status ++ "\n")] else [])

/-- Whether an event is a probe of an `https://` URL that returned `0`. -/
def isFailedHttps : Event → Bool
  | Event.probe url status => HasPrefix url "https://" && decide (status = 0)
  | Event.print _ => false

/-! ## What one job and one port contribute -/

/-- The events of one job run from the network state `net`, on an empty trace. -/
def jobEvents {σ ε : Type} (client : Client σ ε) (timeout : Duration) (net : σ) (j : job) :
    List Event :=
  (jobBody client timeout { status := 0, net := net, trace := [] } j).trace

/-- The network state one job leaves behind when run from the network state `net`. -/
def jobNet {σ ε : Type} (client : Client σ ε) (timeout : Duration) (net : σ) (j : job) : σ :=
  (jobBody client timeout { status := 0, net := net, trace := [] } j).net

/-- The events of one port of a job, run from the network state `net`. -/
def portEvents {σ ε : Type} (client : Client σ ε) (timeout : Duration) (domain : String)
    (net : σ) (port : String) : List Event :=
  (portBody client timeout domain { status := 0, net := net, trace := [] } port).trace

/-- The network state one port of a job leaves behind. -/
def portNet {σ ε : Type} (client : Client σ ε) (timeout : Duration) (domain : String)
    (net : σ) (port : String) : σ :=
  (portBody client timeout domain { status := 0, net := net, trace := [] } port).net

/-! ## Test doubles -/

/-- A server that answers `code` on exactly the URL `alive` and fails otherwise. -/
def mockClient (alive : String) (code : Int) : Client Unit String where
  DoTimeout := fun _ req _ =>
    if req.uri = alive then ((none, { StatusCode := code }), ())
    else ((some "dial tcp: connection refused", { StatusCode := 0 }), ())

/-- A server that answers `code` on every URL. -/
def constClient (code : Int) : Client Unit String where
  DoTimeout := fun _ _ _ => ((none, { StatusCode := code }), ())

/-- A network on which every request fails. -/
def deadClient : Client Unit String where
  DoTimeout := fun _ _ _ => ((some "timeout", { StatusCode := 0 }), ())

/-! ## Basic facts about traces -/

section Lemmas

variable {σ ε : Type}

@[simp] theorem probedURLs_append (xs ys : List Event) :
    probedURLs (xs ++ ys) = probedURLs xs ++ probedURLs ys := by
  induction xs with
  | nil => rfl
  | cons e es ih => cases e <;> simp [probedURLs, ih]

@[simp] theorem printed_append (xs ys : List Event) :
    printed (xs ++ ys) = printed xs ++ printed ys := by
  induction xs with
  | nil => rfl
  | cons e es ih => cases e <;> simp [printed, ih]

/-- The inner loop body on a domain that begins with `http`. -/
theorem portBody_scheme (client : Client σ ε) (timeout : Duration) (domain : String)
    (h : HasPrefix domain "http" = true) (st : WorkerState σ) (port : String) :
    portBody client timeout domain st port
      = { status := (isAlive client st.net (sprintfColon domain port) timeout).1,
          net := (isAlive client st.net (sprintfColon domain port) timeout).2,
          trace := st.trace ++
            Event.probe (sprintfColon domain port)
                (isAlive client st.net (sprintfColon domain port) timeout).1 ::
              (if (isAlive client st.net (sprintfColon domain port) timeout).1 ≠ 0 then
                [Event.print (printfLine (sprintfColon domain port)
                  (isAlive client st.net (sprintfColon domain port) timeout).1)]
               else []) } := by
  unfold portBody
  by_cases h1 : (isAlive client st.net (sprintfColon domain port) timeout).1 = 0 <;>
    simp [h, h1]

/-- The inner loop body on any other domain, when the https probe answers. -/
theorem portBody_bare_https (client : Client σ ε) (timeout : Duration) (domain : String)
    (h : HasPrefix domain "http" = false) (st : WorkerState σ) (port : String)
    (h1 : (isAlive client st.net (sprintfHttps domain port) timeout).1 ≠ 0) :
    portBody client timeout domain st port
      = { status := (isAlive client st.net (sprintfHttps domain port) timeout).1,
          net := (isAlive client st.net (sprintfHttps domain port) timeout).2,
          trace := st.trace ++
            [Event.probe (sprintfHttps domain port)
                (isAlive client st.net (sprintfHttps domain port) timeout).1,
              Event.print (printfLine (sprintfHttps domain port)
                (isAlive client st.net (sprintfHttps domain port) timeout).1)] } := by
  unfold portBody
  simp [h, h1]

/-- The inner loop body on any other domain, when the https probe gives `0`. -/
theorem portBody_bare_http (client : Client σ ε) (timeout : Duration) (domain : String)
    (h : HasPrefix domain "http" = false) (st : WorkerState σ) (port : String)
    (h1 : (isAlive client st.net (sprintfHttps domain port) timeout).1 = 0) :
    portBody client timeout domain st port
      = { status := (isAlive client (isAlive client st.net (sprintfHttps domain port) timeout).2
            (sprintfHttp domain port) timeout).1,
          net := (isAlive client (isAlive client st.net (sprintfHttps domain port) timeout).2
            (sprintfHttp domain port) timeout).2,
          trace := st.trace ++
            Event.probe (sprintfHttps domain port) 0 ::
            Event.probe (sprintfHttp domain port)
              (isAlive client (isAlive client st.net (sprintfHttps domain port) timeout).2
                (sprintfHttp domain port) timeout).1 ::
            (if (isAlive client (isAlive client st.net (sprintfHttps domain port) timeout).2
                  (sprintfHttp domain port) timeout).1 ≠ 0 then
              [Event.print (printfLine (sprintfHttp domain port)
                (isAlive client (isAlive client st.net (sprintfHttps domain port) timeout).2
                  (sprintfHttp domain port) timeout).1)]
             else []) } := by
  unfold portBody
  by_cases h2 : (isAlive client (isAlive client st.net (sprintfHttps domain port) timeout).2
      (sprintfHttp domain port) timeout).1 = 0 <;>
    simp [h, h1, h2]

/-- The inner loop body only appends to the trace, and what it appends and the
network state it leaves do not depend on the incoming `status` or trace. -/
theorem portBody_eq (client : Client σ ε) (timeout : Duration) (domain : String)
    (st : WorkerState σ) (port : String) :
    (portBody client timeout domain st port).trace
        = st.trace ++ portEvents client timeout domain st.net port
      ∧ (portBody client timeout domain st port).net = portNet client timeout domain st.net port := by
  unfold portEvents portNet
  cases h : HasPrefix domain "http"
  · by_cases h1 : (isAlive client st.net (sprintfHttps domain port) timeout).1 = 0
    · rw [portBody_bare_http client timeout domain h st port h1,
        portBody_bare_http client timeout domain h
          { status := 0, net := st.net, trace := [] } port h1]
      simp
    · rw [portBody_bare_https client timeout domain h st port h1,
        portBody_bare_https client timeout domain h
          { status := 0, net := st.net, trace := [] } port h1]
      simp
  · rw [portBody_scheme client timeout domain h st port,
      portBody_scheme client timeout domain h { status := 0, net := st.net, trace := [] } port]
    simp

theorem portsFold_eq (client : Client σ ε) (timeout : Duration) (domain : String)
    (ports : List String) (st : WorkerState σ) :
    (jobBody client timeout st { domain := domain, ports := ports }).trace
        = st.trace ++ jobEvents client timeout st.net { domain := domain, ports := ports }
      ∧ (jobBody client timeout st { domain := domain, ports := ports }).net
        = jobNet client timeout st.net { domain := domain, ports := ports } := by
  induction ports generalizing st with
  | nil => simp [jobBody, jobEvents, jobNet]
  | cons p ps ih =>
    have h1 := ih (portBody client timeout domain st p)
    have h2 := ih (portBody client timeout domain { status := 0, net := st.net, trace := [] } p)
    have h3 := portBody_eq client timeout domain st p
    have h4 := portBody_eq client timeout domain { status := 0, net := st.net, trace := [] } p
    simp only [jobBody, jobEvents, jobNet, List.foldl_cons] at h1 h2 ⊢
    simp only [h1.1, h1.2, h2.1, h2.2, h3.1, h3.2, h4.1, h4.2, List.append_assoc, List.nil_append,
      and_self]

theorem jobEvents_nil (client : Client σ ε) (timeout : Duration) (domain : String) (net : σ) :
    jobEvents client timeout net { domain := domain, ports := [] } = [] := rfl

theorem jobNet_nil (client : Client σ ε) (timeout : Duration) (domain : String) (net : σ) :
    jobNet client timeout net { domain := domain, ports := [] } = net := rfl

theorem jobEvents_cons (client : Client σ ε) (timeout : Duration) (domain : String) (net : σ)
    (p : String) (ps : List String) :
    jobEvents client timeout net { domain := domain, ports := p :: ps }
      = portEvents client timeout domain net p
        ++ jobEvents client timeout (portNet client timeout domain net p)
            { domain := domain, ports := ps } := by
  have h := portsFold_eq client timeout domain ps
    (portBody client timeout domain { status := 0, net := net, trace := [] } p)
  simp only [jobBody] at h
  simp only [jobEvents, jobBody, List.foldl_cons, h.1]
  rfl

theorem jobNet_cons (client : Client σ ε) (timeout : Duration) (domain : String) (net : σ)
    (p : String) (ps : List String) :
    jobNet client timeout net { domain := domain, ports := p :: ps }
      = jobNet client timeout (portNet client timeout domain net p)
          { domain := domain, ports := ps } := by
  have h := portsFold_eq client timeout domain ps
    (portBody client timeout domain { status := 0, net := net, trace := [] } p)
  simp only [jobBody] at h
  simp only [jobNet, jobBody, List.foldl_cons, h.2]
  rfl

theorem jobEvents_append (client : Client σ ε) (timeout : Duration) (domain : String)
    (ps1 ps2 : List String) (net : σ) :
    jobEvents client timeout net { domain := domain, ports := ps1 ++ ps2 }
        = jobEvents client timeout net { domain := domain, ports := ps1 }
          ++ jobEvents client timeout (jobNet client timeout net { domain := domain, ports := ps1 })
              { domain := domain, ports := ps2 }
      ∧ jobNet client timeout net { domain := domain, ports := ps1 ++ ps2 }
        = jobNet client timeout (jobNet client timeout net { domain := domain, ports := ps1 })
            { domain := domain, ports := ps2 } := by
  induction ps1 generalizing net with
  | nil => simp [jobEvents_nil, jobNet_nil]
  | cons p ps ih =>
    have h := ih (portNet client timeout domain net p)
    simp only [List.cons_append, jobEvents_cons, jobNet_cons, h.1, h.2, List.append_assoc,
      and_self]

theorem portEvents_scheme (client : Client σ ε) (timeout : Duration) (domain : String)
    (h : HasPrefix domain "http" = true) (net : σ) (port : String) :
    portEvents client timeout domain net port
        = Event.probe (domain ++ ":" ++ port)
              (isAlive client net (domain ++ ":" ++ port) timeout).1 ::
            (if (isAlive client net (domain ++ ":" ++ port) timeout).1 ≠ 0 then
              [Event.print (domain ++ ":" ++ port ++ " "
                ++ formatInt (isAlive client net (domain ++ ":" ++ port) timeout).1 ++ "\n")]
             else [])
      ∧ portNet client timeout domain net port
        = (isAlive client net (domain ++ ":" ++ port) timeout).2 := by
  unfold portEvents portNet
  rw [portBody_scheme client timeout domain h]
  simp [sprintfColon, printfLine]

theorem portEvents_bare_https (client : Client σ ε) (timeout : Duration) (domain : String)
    (h : HasPrefix domain "http" = false) (net : σ) (port : String)
    (h1 : (isAlive client net ("https://" ++ domain ++ ":" ++ port) timeout).1 ≠ 0) :
    portEvents client timeout domain net port
        = [Event.probe ("https://" ++ domain ++ ":" ++ port)
              (isAlive client net ("https://" ++ domain ++ ":" ++ port) timeout).1,
            Event.print ("https://" ++ domain ++ ":" ++ port ++ " "
              ++ formatInt (isAlive client net ("https://" ++ domain ++ ":" ++ port) timeout).1
              ++ "\n")]
      ∧ portNet client timeout domain net port
        = (isAlive client net ("https://" ++ domain ++ ":" ++ port) timeout).2 := by
  unfold portEvents portNet
  rw [portBody_bare_https client timeout domain h _ port h1]
  simp [sprintfHttps, printfLine]

theorem portEvents_bare_http (client : Client σ ε) (timeout : Duration) (domain : String)
    (h : HasPrefix domain "http" = false) (net : σ) (port : String)
    (h1 : (isAlive client net ("https://" ++ domain ++ ":" ++ port) timeout).1 = 0) :
    portEvents client timeout domain net port
        = Event.probe ("https://" ++ domain ++ ":" ++ port) 0 ::
          Event.probe ("http://" ++ domain ++ ":" ++ port)
            (isAlive client (isAlive client net ("https://" ++ domain ++ ":" ++ port) timeout).2
              ("http://" ++ domain ++ ":" ++ port) timeout).1 ::
          (if (isAlive client (isAlive client net ("https://" ++ domain ++ ":" ++ port) timeout).2
                ("http://" ++ domain ++ ":" ++ port) timeout).1 ≠ 0 then
            [Event.print ("http://" ++ domain ++ ":" ++ port ++ " "
              ++ formatInt
                (isAlive client (isAlive client net ("https://" ++ domain ++ ":" ++ port) timeout).2
                  ("http://" ++ domain ++ ":" ++ port) timeout).1
              ++ "\n")]
           else [])
      ∧ portNet client timeout domain net port
        = (isAlive client (isAlive client net ("https://" ++ domain ++ ":" ++ port) timeout).2
            ("http://" ++ domain ++ ":" ++ port) timeout).2 := by
  unfold portEvents portNet
  rw [portBody_bare_http client timeout domain h _ port h1]
  simp [sprintfHttps, sprintfHttp, printfLine]

/-- The trace of a job whose port list is split around one port. -/
theorem jobBody_split (client : Client σ ε) (timeout : Duration) (domain : String)
    (st : WorkerState σ) (pre post : List String) (p : String) :
    (jobBody client timeout st { domain := domain, ports := pre ++ p :: post }).trace
      = (jobBody client timeout st { domain := domain, ports := pre }).trace
        ++ portEvents client timeout domain
            (jobBody client timeout st { domain := domain, ports := pre }).net p
        ++ jobEvents client timeout
            (portNet client timeout domain
              (jobBody client timeout st { domain := domain, ports := pre }).net p)
            { domain := domain, ports := post } := by
  have h1 := portsFold_eq client timeout domain (pre ++ p :: post) st
  have h2 := portsFold_eq client timeout domain pre st
  have h3 := jobEvents_append client timeout domain pre (p :: post) st.net
  rw [h1.1, h3.1, jobEvents_cons, h2.1, h2.2]
  simp only [List.append_assoc]

theorem probedURLs_scheme (client : Client σ ε) (timeout : Duration) (domain : String)
    (h : HasPrefix domain "http" = true) (ports : List String) (net : σ) :
    probedURLs (jobEvents client timeout net { domain := domain, ports := ports })
      = ports.map (fun p => domain ++ ":" ++ p) := by
  induction ports generalizing net with
  | nil => rfl
  | cons p ps ih =>
    rw [jobEvents_cons, probedURLs_append, ih, (portEvents_scheme client timeout domain h net p).1]
    by_cases h1 : (isAlive client net (domain ++ ":" ++ p) timeout).1 = 0 <;>
      simp [probedURLs, h1]

/-- The first URL a port is probed with is always in the trace, whatever came before. -/
theorem probedURLs_first (client : Client σ ε) (timeout : Duration) (domain : String)
    (ports : List String) (net : σ) :
    (ports.map (fun p =>
        if HasPrefix domain "http" = true then domain ++ ":" ++ p
        else "https://" ++ domain ++ ":" ++ p)).Sublist
      (probedURLs (jobEvents client timeout net { domain := domain, ports := ports })) := by
  induction ports generalizing net with
  | nil => simp [jobEvents_nil, probedURLs]
  | cons p ps ih =>
    rw [jobEvents_cons, probedURLs_append, List.map_cons]
    have hrest := ih (portNet client timeout domain net p)
    cases h : HasPrefix domain "http"
    · simp only [h, Bool.false_eq_true, if_false] at hrest ⊢
      by_cases h1 : (isAlive client net ("https://" ++ domain ++ ":" ++ p) timeout).1 = 0
      · rw [(portEvents_bare_http client timeout domain h net p h1).1]
        simp only [probedURLs, List.cons_append]
        refine List.Sublist.cons₂ _ (List.Sublist.cons _ ?_)
        exact hrest.trans (List.sublist_append_right _ _)
      · rw [(portEvents_bare_https client timeout domain h net p h1).1]
        simp only [probedURLs, List.cons_append, List.nil_append]
        exact List.Sublist.cons₂ _ hrest
    · simp only [h, if_true] at hrest ⊢
      rw [(portEvents_scheme client timeout domain h net p).1]
      simp only [probedURLs, List.cons_append]
      refine List.Sublist.cons₂ _ ?_
      exact hrest.trans (List.sublist_append_right _ _)

theorem https_data : ("https://" : String).data = ['h', 't', 't', 'p', 's', ':', '/', '/'] := by
  decide

theorem http_data : ("http://" : String).data = ['h', 't', 't', 'p', ':', '/', '/'] := by
  decide

theorem HasPrefix_https_url (d p : String) :
    HasPrefix ("https://" ++ d ++ ":" ++ p) "https://" = true := by
  simp [HasPrefix, String.data_append, https_data]

theorem HasPrefix_http_url (d p : String) :
    HasPrefix ("http://" ++ d ++ ":" ++ p) "https://" = false := by
  simp [HasPrefix, String.data_append, https_data, http_data, List.isPrefixOf]

@[simp] theorem probes_append (xs ys : List Event) :
    probes (xs ++ ys) = probes xs ++ probes ys := by
  induction xs with
  | nil => rfl
  | cons e es ih => cases e <;> simp [probes, ih]

theorem probes_reported (url : String) (status : Int) :
    probes (reported url status) = [(url, status)] := by
  unfold reported
  by_cases h : status = 0 <;> simp [probes, h]

theorem probedURLs_reported (url : String) (status : Int) :
    probedURLs (reported url status) = [url] := by
  unfold reported
  by_cases h : status = 0 <;> simp [probedURLs, h]

theorem printed_reported (url : String) (status : Int) :
    printed (reported url status)
      = if status ≠ 0 then [url ++ " " ++ formatInt status ++ "\n"] else [] := by
  unfold reported
  by_cases h : status = 0 <;> simp [printed, h]

/-- The three shapes of what one port contributes to the trace. -/
theorem portEvents_cases (client : Client σ ε) (timeout : Duration) (domain : String)
    (net : σ) (p : String) :
    (HasPrefix domain "http" = true
        ∧ portEvents client timeout domain net p
          = reported (domain ++ ":" ++ p) (isAlive client net (domain ++ ":" ++ p) timeout).1)
      ∨ (HasPrefix domain "http" = false
        ∧ (isAlive client net ("https://" ++ domain ++ ":" ++ p) timeout).1 ≠ 0
        ∧ portEvents client timeout domain net p
          = reported ("https://" ++ domain ++ ":" ++ p)
              (isAlive client net ("https://" ++ domain ++ ":" ++ p) timeout).1)
      ∨ (HasPrefix domain "http" = false
        ∧ (isAlive client net ("https://" ++ domain ++ ":" ++ p) timeout).1 = 0
        ∧ portEvents client timeout domain net p
          = reported ("https://" ++ domain ++ ":" ++ p) 0
            ++ reported ("http://" ++ domain ++ ":" ++ p)
                (isAlive client (isAlive client net ("https://" ++ domain ++ ":" ++ p) timeout).2
                  ("http://" ++ domain ++ ":" ++ p) timeout).1) := by
  cases h : HasPrefix domain "http"
  · by_cases h1 : (isAlive client net ("https://" ++ domain ++ ":" ++ p) timeout).1 = 0
    · right; right
      refine ⟨rfl, h1, ?_⟩
      rw [(portEvents_bare_http client timeout domain h net p h1).1]
      simp [reported]
    · right; left
      refine ⟨rfl, h1, ?_⟩
      rw [(portEvents_bare_https client timeout domain h net p h1).1]
      simp [reported, h1]
  · left
    refine ⟨rfl, ?_⟩
    rw [(portEvents_scheme client timeout domain h net p).1]
    rfl

/-- A property of traces that holds of the empty trace, is kept by concatenation
and holds of what each port contributes, holds of what a job contributes. -/
theorem jobEvents_induction (client : Client σ ε) (timeout : Duration) (P : List Event → Prop)
    (hnil : P []) (happ : ∀ a b, P a → P b → P (a ++ b))
    (hport : ∀ domain net p, P (portEvents client timeout domain net p))
    (domain : String) (ports : List String) (net : σ) :
    P (jobEvents client timeout net { domain := domain, ports := ports }) := by
  induction ports generalizing net with
  | nil => exact hnil
  | cons p ps ih =>
    rw [jobEvents_cons]
    exact happ _ _ (hport domain net p) (ih _)

/-- The same for the whole run of a worker over the jobs it receives. -/
theorem worker_trace_induction (client : Client σ ε) (timeout : Duration)
    (P : List Event → Prop) (hnil : P []) (happ : ∀ a b, P a → P b → P (a ++ b))
    (hport : ∀ domain net p, P (portEvents client timeout domain net p))
    (jobs : List job) (net : σ) :
    P (worker client timeout net jobs).trace := by
  have key : ∀ (js : List job) (st : WorkerState σ), P st.trace →
      P (js.foldl (jobBody client timeout) st).trace := by
    intro js
    induction js with
    | nil => intro st hst; exact hst
    | cons j js ih =>
      intro st hst
      rw [List.foldl_cons]
      apply ih
      obtain ⟨d, ps⟩ := j
      rw [(portsFold_eq client timeout d ps st).1]
      exact happ _ _ hst (jobEvents_induction client timeout P hnil happ hport d ps st.net)
  exact key jobs _ hnil

/-- Every trace of a worker is a sequence of faithfully reported probes, and every
status in it is a value `isAlive` returned for that URL. -/
theorem worker_trace_reported (client : Client σ ε) (timeout : Duration)
    (jobs : List job) (net : σ) :
    ∃ L : List (String × Int),
      (worker client timeout net jobs).trace = L.flatMap (fun us => reported us.1 us.2)
        ∧ ∀ us ∈ L, ∃ n : σ, (isAlive client n us.1 timeout).1 = us.2 := by
  apply worker_trace_induction client timeout
    (fun tr => ∃ L : List (String × Int), tr = L.flatMap (fun us => reported us.1 us.2)
        ∧ ∀ us ∈ L, ∃ n : σ, (isAlive client n us.1 timeout).1 = us.2)
  · exact ⟨[], rfl, by simp⟩
  · rintro a b ⟨La, ha, hLa⟩ ⟨Lb, hb, hLb⟩
    refine ⟨La ++ Lb, by rw [ha, hb, List.flatMap_append], ?_⟩
    intro us hus
    rcases List.mem_append.mp hus with h | h
    · exact hLa us h
    · exact hLb us h
  · intro domain n p
    rcases portEvents_cases client timeout domain n p with ⟨_, h⟩ | ⟨_, _, h⟩ | ⟨_, h1, h⟩
    · exact ⟨[(domain ++ ":" ++ p, (isAlive client n (domain ++ ":" ++ p) timeout).1)],
        by simp [h], by simp⟩
    · exact ⟨[("https://" ++ domain ++ ":" ++ p,
          (isAlive client n ("https://" ++ domain ++ ":" ++ p) timeout).1)],
        by simp [h], by simp⟩
    · refine ⟨[("https://" ++ domain ++ ":" ++ p, 0),
          ("http://" ++ domain ++ ":" ++ p,
            (isAlive client (isAlive client n ("https://" ++ domain ++ ":" ++ p) timeout).2
              ("http://" ++ domain ++ ":" ++ p) timeout).1)], by simp [h], ?_⟩
      intro us hus
      simp only [List.mem_cons, List.mem_singleton, List.mem_nil_iff, or_false] at hus
      rcases hus with rfl | rfl
      · exact ⟨n, h1⟩
      · exact ⟨_, rfl⟩

theorem probes_flatMap_reported (L : List (String × Int)) :
    probes (L.flatMap (fun us => reported us.1 us.2)) = L := by
  induction L with
  | nil => rfl
  | cons us L ih => simp [List.flatMap_cons, probes_reported, ih]

theorem printed_flatMap_reported (L : List (String × Int)) :
    printed (L.flatMap (fun us => reported us.1 us.2))
      = (L.filter (fun us => us.2 ≠ 0)).map (fun us => us.1 ++ " " ++ formatInt us.2 ++ "\n") := by
  induction L with
  | nil => rfl
  | cons us L ih =>
    by_cases h : us.2 = 0 <;>
      simp [List.flatMap_cons, printed_reported, ih, h, List.filter_cons]

/-- In a sequence of faithfully reported probes every printed line directly
follows the probe it reports, and that probe did not return `0`. -/
theorem print_in_flatMap_reported (L : List (String × Int)) (pre post : List Event)
    (text : String)
    (h : L.flatMap (fun us => reported us.1 us.2) = pre ++ Event.print text :: post) :
    ∃ (pre1 : List Event) (us : String × Int), us ∈ L ∧ pre = pre1 ++ [Event.probe us.1 us.2]
      ∧ us.2 ≠ 0 ∧ text = us.1 ++ " " ++ formatInt us.2 ++ "\n" := by
  induction L generalizing pre with
  | nil => simp at h
  | cons us L ih =>
    rw [List.flatMap_cons] at h
    cases pre with
    | nil => simp [reported] at h
    | cons e pre1 =>
      by_cases hs : us.2 = 0
      · simp only [reported, hs, ne_eq, not_true_eq_false, if_false, List.cons_append,
          List.nil_append, List.cons.injEq] at h
        obtain ⟨pre2, vs, hvs, hp, hne, ht⟩ := ih pre1 h.2
        exact ⟨e :: pre2, vs, List.mem_cons_of_mem _ hvs, by simp [hp], hne, ht⟩
      · simp only [reported, hs, ne_eq, not_false_eq_true, if_true, List.cons_append,
          List.nil_append, List.cons.injEq] at h
        cases pre1 with
        | nil =>
          simp only [List.nil_append, List.cons.injEq, Event.print.injEq] at h
          exact ⟨[], us, List.mem_cons_self _ _, by simp [h.1], hs, h.2.1.symm⟩
        | cons e2 pre2 =>
          simp only [List.cons_append, List.cons.injEq] at h
          obtain ⟨pre3, vs, hvs, hp, hne, ht⟩ := ih pre2 h.2.2
          exact ⟨e :: e2 :: pre3, vs, List.mem_cons_of_mem _ hvs, by simp [hp], hne, ht⟩

theorem countP_reported_https (d p : String) (status : Int) :
    (reported ("https://" ++ d ++ ":" ++ p) status).countP isFailedHttps
      = if status = 0 then 1 else 0 := by
  unfold reported
  by_cases h : status = 0 <;>
    simp [List.countP_cons, isFailedHttps, HasPrefix_https_url, h]

theorem countP_reported_http (d p : String) (status : Int) :
    (reported ("http://" ++ d ++ ":" ++ p) status).countP isFailedHttps = 0 := by
  unfold reported
  by_cases h : status = 0 <;>
    simp [List.countP_cons, isFailedHttps, HasPrefix_http_url, h]

theorem length_printed_reported_le (url : String) (status : Int) :
    (printed (reported url status)).length ≤ 1 := by
  rw [printed_reported]
  by_cases h : status = 0 <;> simp [h]

/-- The numbers of lines and probes of one job. -/
theorem job_counts (client : Client σ ε) (timeout : Duration) (domain : String)
    (ports : List String) (net : σ) :
    (printed (jobEvents client timeout net { domain := domain, ports := ports })).length
        ≤ ports.length
      ∧ ports.length
        ≤ (probedURLs (jobEvents client timeout net { domain := domain, ports := ports })).length
      ∧ (probedURLs (jobEvents client timeout net { domain := domain, ports := ports })).length
        ≤ 2 * ports.length
      ∧ (HasPrefix domain "http" = true →
          (probedURLs (jobEvents client timeout net { domain := domain, ports := ports })).length
            = ports.length)
      ∧ (HasPrefix domain "http" = false →
          (probedURLs (jobEvents client timeout net { domain := domain, ports := ports })).length
            = ports.length
              + (jobEvents client timeout net { domain := domain, ports := ports }).countP
                  isFailedHttps) := by
  induction ports generalizing net with
  | nil => simp [jobEvents_nil, printed, probedURLs]
  | cons p ps ih =>
    obtain ⟨i1, i2, i3, i4, i5⟩ := ih (portNet client timeout domain net p)
    rw [jobEvents_cons]
    simp only [printed_append, probedURLs_append, List.length_append, List.length_cons,
      List.countP_append]
    rcases portEvents_cases client timeout domain net p with ⟨hd, h⟩ | ⟨hd, h1, h⟩ | ⟨hd, h1, h⟩
    · have hl := length_printed_reported_le (domain ++ ":" ++ p)
        (isAlive client net (domain ++ ":" ++ p) timeout).1
      rw [h, probedURLs_reported]
      simp only [List.length_singleton, hd, Bool.true_eq_false, false_implies, and_true,
        true_implies]
      have i4 := i4 hd
      omega
    · have hl := length_printed_reported_le ("https://" ++ domain ++ ":" ++ p)
        (isAlive client net ("https://" ++ domain ++ ":" ++ p) timeout).1
      rw [h, probedURLs_reported, countP_reported_https, if_neg h1]
      simp only [List.length_singleton, hd, Bool.false_eq_true, false_implies, true_and,
        true_implies]
      have i5 := i5 hd
      omega
    · have hl := length_printed_reported_le ("http://" ++ domain ++ ":" ++ p)
        (isAlive client (isAlive client net ("https://" ++ domain ++ ":" ++ p) timeout).2
          ("http://" ++ domain ++ ":" ++ p) timeout).1
      have h0 : printed (reported ("https://" ++ domain ++ ":" ++ p) 0) = [] := by
        rw [printed_reported]; simp
      rw [h]
      simp only [printed_append, probedURLs_append, List.length_append, List.countP_append,
        probedURLs_reported, countP_reported_https, countP_reported_http, h0,
        List.length_singleton, List.length_nil, hd, Bool.false_eq_true, false_implies,
        true_and, true_implies, if_true]
      have i5 := i5 hd
      omega

/-- The lines of one job come from different ports, in the order of the port list. -/
theorem job_lines_in_port_order (client : Client σ ε) (timeout : Duration) (domain : String)
    (ports : List String) (net : σ) :
    ∃ qs : List String, qs.Sublist ports
      ∧ List.Forall₂
          (fun q text => ∃ (url : String) (status : Int),
            status ≠ 0 ∧ text = url ++ " " ++ formatInt status ++ "\n"
              ∧ (url = domain ++ ":" ++ q ∨ url = "https://" ++ domain ++ ":" ++ q
                  ∨ url = "http://" ++ domain ++ ":" ++ q))
          qs (printed (jobEvents client timeout net { domain := domain, ports := ports })) := by
  induction ports generalizing net with
  | nil => exact ⟨[], List.Sublist.slnil, by simp [jobEvents_nil, printed]⟩
  | cons p ps ih =>
    obtain ⟨qs, hsub, hall⟩ := ih (portNet client timeout domain net p)
    rw [jobEvents_cons, printed_append]
    have one : ∀ (url : String) (status : Int),
        (url = domain ++ ":" ++ p ∨ url = "https://" ++ domain ++ ":" ++ p
          ∨ url = "http://" ++ domain ++ ":" ++ p) →
        ∃ qs1 : List String, qs1.Sublist (p :: ps)
          ∧ List.Forall₂
              (fun q text => ∃ (url : String) (status : Int),
                status ≠ 0 ∧ text = url ++ " " ++ formatInt status ++ "\n"
                  ∧ (url = domain ++ ":" ++ q ∨ url = "https://" ++ domain ++ ":" ++ q
                      ∨ url = "http://" ++ domain ++ ":" ++ q))
              qs1
              (printed (reported url status)
                ++ printed (jobEvents client timeout (portNet client timeout domain net p)
                    { domain := domain, ports := ps })) := by
      intro url status hurl
      rw [printed_reported]
      by_cases hs : status = 0
      · exact ⟨qs, List.Sublist.cons _ hsub, by simpa [hs] using hall⟩
      · refine ⟨p :: qs, List.Sublist.cons₂ _ hsub, ?_⟩
        simp only [ne_eq, hs, not_false_eq_true, if_true, List.singleton_append]
        exact List.Forall₂.cons ⟨url, status, hs, rfl, hurl⟩ hall
    rcases portEvents_cases client timeout domain net p with ⟨_, h⟩ | ⟨_, _, h⟩ | ⟨_, _, h⟩
    · rw [h]
      exact one _ _ (Or.inl rfl)
    · rw [h]
      exact one _ _ (Or.inr (Or.inl rfl))
    · have h0 : printed (reported ("https://" ++ domain ++ ":" ++ p) 0) = [] := by
        rw [printed_reported]; simp
      rw [h, printed_append, h0, List.nil_append]
      exact one _ _ (Or.inr (Or.inr rfl))

end Lemmas

/-! ## The probe -/

section Claims

variable {σ ε : Type}

/-- C7: `isAlive` runs one GET request for the URL through `DoTimeout`; whatever
error `DoTimeout` reports, the result is `0`; with no error the result is the
status code of the response, unchanged; in both cases the only effect is the one
of the `DoTimeout` call itself, and the result is a plain integer. -/
theorem isAlive_absorbs_errors (client : Client σ ε) (net : σ) (url : String)
    (timeout : Duration) :
    (isAlive client net url timeout).2
        = (client.DoTimeout net { uri := url, method := "GET" } timeout).2
      ∧ (∀ e : ε, (client.DoTimeout net { uri := url, method := "GET" } timeout).1.1 = some e →
          (isAlive client net url timeout).1 = 0)
      ∧ ((client.DoTimeout net { uri := url, method := "GET" } timeout).1.1 = none →
          (isAlive client net url timeout).1
            = (client.DoTimeout net { uri := url, method := "GET" } timeout).1.2.StatusCode) := by
  have hreq : (AcquireRequest.SetRequestURI url).SetMethod "GET"
      = { uri := url, method := "GET" } := rfl
  unfold isAlive
  simp only [hreq]
  rcases hd : client.DoTimeout net { uri := url, method := "GET" } timeout with ⟨⟨err, resp⟩, net1⟩
  cases err with
  | none => simp
  | some e => simp

/-- C7, on two test doubles: a refused connection gives `0`, an answer `503` gives `503`. -/
theorem isAlive_absorbs_errors_witness :
    (isAlive deadClient () "https://example.com:443" 3000000000).1 = 0
      ∧ (isAlive (constClient 503) () "https://example.com:443" 3000000000).1 = 503 :=
  ⟨(isAlive_absorbs_errors deadClient () "https://example.com:443" 3000000000).2.1 "timeout" rfl,
   (isAlive_absorbs_errors (constClient 503) () "https://example.com:443" 3000000000).2.2 rfl⟩

end Claims

/-! ## The job source -/

theorem main_fold (ports : List String) (lines : List String) (sent : List job) :
    lines.foldl
        (fun sent domain =>
          if domain = "" then sent else sent ++ [{ domain := domain, ports := ports }])
        sent
      = sent ++ (lines.filter (fun l => l ≠ "")).map (fun l => { domain := l, ports := ports }) := by
  induction lines generalizing sent with
  | nil => simp
  | cons l ls ih =>
    by_cases h : l = ""
    · simp [List.foldl_cons, h, ih]
    · simp [List.foldl_cons, h, ih]

/-- C5: the jobs `main` sends are the input lines without the empty strings, in
input order, each with the full port list; a non-empty line is taken unchanged
(also one made of blanks only), and there are as many jobs as non-empty lines. -/
theorem main_sends_nonempty_lines (ports : List String) (lines : List String) :
    main ports lines
        = (lines.filter (fun l => l ≠ "")).map (fun l => { domain := l, ports := ports })
      ∧ (main ports lines).length = lines.countP (fun l => l ≠ "")
      ∧ (main ports lines).map job.domain = lines.filter (fun l => l ≠ "")
      ∧ (∀ j ∈ main ports lines, j.ports = ports ∧ j.domain ≠ "" ∧ j.domain ∈ lines)
      ∧ (∀ l ∈ lines, l ≠ "" → { domain := l, ports := ports } ∈ main ports lines) := by
  have h : main ports lines
      = (lines.filter (fun l => l ≠ "")).map (fun l => { domain := l, ports := ports }) := by
    unfold main
    rw [main_fold]
    simp
  refine ⟨h, ?_, ?_, ?_, ?_⟩
  · rw [h, List.length_map, List.countP_eq_length_filter]
  · rw [h, List.map_map]
    simp [Function.comp_def]
  · intro j hj
    rw [h] at hj
    simp only [List.mem_map, List.mem_filter] at hj
    obtain ⟨l, ⟨hl, hne⟩, rfl⟩ := hj
    exact ⟨rfl, by simpa using hne, hl⟩
  · intro l hl hne
    rw [h]
    simp only [List.mem_map, List.mem_filter]
    exact ⟨l, ⟨hl, by simpa using hne⟩, rfl⟩

/-- C5, on an input with an empty line and lines of blanks between two domains. -/
theorem main_sends_nonempty_lines_witness :
    main ["443", "80"] ["a.test", "", "  ", "\t", "", "b.test"]
      = [{ domain := "a.test", ports := ["443", "80"] },
         { domain := "  ", ports := ["443", "80"] },
         { domain := "\t", ports := ["443", "80"] },
         { domain := "b.test", ports := ["443", "80"] }] :=
  (main_sends_nonempty_lines ["443", "80"] ["a.test", "", "  ", "\t", "", "b.test"]).1.trans
    (by decide)

/-! ## The worker -/

section WorkerClaims

variable {σ ε : Type}

/-- C1: on a domain that does not begin with `http`, at every port `p` of the job the
worker first probes `https://domain:p`; on a non-zero status it prints that URL
with the status and goes to the next port without probing the http URL; on `0` it
probes `http://domain:p` next and prints that URL with its status exactly when
the status is not `0`. -/
theorem bare_domain_https_then_http (client : Client σ ε) (timeout : Duration)
    (domain : String) (h : HasPrefix domain "http" = false) (st : WorkerState σ)
    (pre post : List String) (p : String) :
    let st1 := jobBody client timeout st { domain := domain, ports := pre }
    let r := isAlive client st1.net ("https://" ++ domain ++ ":" ++ p) timeout
    let r2 := isAlive client r.2 ("http://" ++ domain ++ ":" ++ p) timeout
    (jobBody client timeout st { domain := domain, ports := pre ++ p :: post }).trace
      = st1.trace
        ++ (if r.1 ≠ 0 then
              [Event.probe ("https://" ++ domain ++ ":" ++ p) r.1,
               Event.print ("https://" ++ domain ++ ":" ++ p ++ " " ++ formatInt r.1 ++ "\n")]
            else
              Event.probe ("https://" ++ domain ++ ":" ++ p) 0 ::
              Event.probe ("http://" ++ domain ++ ":" ++ p) r2.1 ::
              (if r2.1 ≠ 0 then
                [Event.print ("http://" ++ domain ++ ":" ++ p ++ " " ++ formatInt r2.1 ++ "\n")]
               else []))
        ++ jobEvents client timeout (if r.1 ≠ 0 then r.2 else r2.2)
            { domain := domain, ports := post } := by
  intro st1 r r2
  rw [jobBody_split]
  by_cases h1 : r.1 = 0
  · have h2 := portEvents_bare_http client timeout domain h st1.net p h1
    rw [h2.1, h2.2, if_neg (not_not.mpr h1), if_neg (not_not.mpr h1)]
  · have h2 := portEvents_bare_https client timeout domain h st1.net p h1
    rw [h2.1, h2.2, if_pos h1, if_pos h1]

/-- C1, end-to-end scenario 1: `example.com` with ports `443,80` against a server
that answers `200` on `https://example.com:443` only. -/
theorem bare_domain_https_then_http_witness :
    HasPrefix "example.com" "http" = false
      ∧ (worker (mockClient "https://example.com:443" 200) 3000000000 ()
          [{ domain := "example.com", ports := ["443", "80"] }]).trace
        = [Event.probe "https://example.com:443" 200,
           Event.print "https://example.com:443 200\n",
           Event.probe "https://example.com:80" 0,
           Event.probe "http://example.com:80" 0]
      ∧ printed (worker (mockClient "https://example.com:443" 200) 3000000000 ()
          [{ domain := "example.com", ports := ["443", "80"] }]).trace
        = ["https://example.com:443 200\n"] :=
  ⟨by decide,
   (bare_domain_https_then_http (mockClient "https://example.com:443" 200) 3000000000
      "example.com" (by decide) { status := 0, net := (), trace := [] } [] ["80"] "443").trans
      (by decide),
   by decide⟩

/-- C2: on a domain that begins with `http`, the URLs probed are exactly
`domain:p` for the ports `p` in order, one probe per port, whatever the probes
return; at every port the line `domain:p status` is printed exactly when that one
probe returned a status other than `0`. -/
theorem scheme_domain_one_probe_per_port (client : Client σ ε) (timeout : Duration)
    (domain : String) (h : HasPrefix domain "http" = true) (st : WorkerState σ)
    (ports : List String) :
    probedURLs (jobBody client timeout st { domain := domain, ports := ports }).trace
        = probedURLs st.trace ++ ports.map (fun p => domain ++ ":" ++ p)
      ∧ ∀ (pre post : List String) (p : String), ports = pre ++ p :: post →
          (jobBody client timeout st { domain := domain, ports := ports }).trace
            = (jobBody client timeout st { domain := domain, ports := pre }).trace
              ++ (Event.probe (domain ++ ":" ++ p)
                    (isAlive client (jobBody client timeout st { domain := domain, ports := pre }).net
                      (domain ++ ":" ++ p) timeout).1 ::
                  (if (isAlive client
                        (jobBody client timeout st { domain := domain, ports := pre }).net
                        (domain ++ ":" ++ p) timeout).1 ≠ 0 then
                    [Event.print (domain ++ ":" ++ p ++ " "
                      ++ formatInt (isAlive client
                          (jobBody client timeout st { domain := domain, ports := pre }).net
                          (domain ++ ":" ++ p) timeout).1
                      ++ "\n")]
                   else []))
              ++ jobEvents client timeout
                  (isAlive client (jobBody client timeout st { domain := domain, ports := pre }).net
                    (domain ++ ":" ++ p) timeout).2
                  { domain := domain, ports := post } := by
  constructor
  · rw [(portsFold_eq client timeout domain ports st).1, probedURLs_append,
      probedURLs_scheme client timeout domain h]
  · intro pre post p hp
    have h2 := portEvents_scheme client timeout domain h
      (jobBody client timeout st { domain := domain, ports := pre }).net p
    rw [hp, jobBody_split, h2.1, h2.2]

/-- C2, end-to-end scenario 2: `http://foo.test` with port `8443` against a server
that answers `404`. -/
theorem scheme_domain_one_probe_per_port_witness :
    HasPrefix "http://foo.test" "http" = true
      ∧ probedURLs (worker (constClient 404) 3000000000 ()
          [{ domain := "http://foo.test", ports := ["8443"] }]).trace
        = ["http://foo.test:8443"]
      ∧ printed (worker (constClient 404) 3000000000 ()
          [{ domain := "http://foo.test", ports := ["8443"] }]).trace
        = ["http://foo.test:8443 404\n"]
      ∧ probedURLs (worker deadClient 3000000000 ()
          [{ domain := "http://foo.test", ports := ["8443", "80"] }]).trace
        = ["http://foo.test:8443", "http://foo.test:80"] :=
  ⟨by decide,
   (scheme_domain_one_probe_per_port (constClient 404) 3000000000 "http://foo.test" (by decide)
      { status := 0, net := (), trace := [] } ["8443"]).1.trans (by decide),
   by decide,
   by decide⟩

/-- C3: the ports of a job are handled one after the other with nothing carried
over but the state of the network: the trace for the port list `ps1 ++ ps2` is
the trace for `ps1` followed by the trace for `ps2`; the value of `status` and the
trace the run starts from change nothing in what is probed and printed; and the
first URL of every port is probed, in port order, whatever earlier probes gave. -/
theorem ports_processed_independently (client : Client σ ε) (timeout : Duration)
    (domain : String) (st : WorkerState σ) (ps1 ps2 : List String) :
    (jobBody client timeout st { domain := domain, ports := ps1 ++ ps2 }).trace
        = st.trace
          ++ jobEvents client timeout st.net { domain := domain, ports := ps1 }
          ++ jobEvents client timeout
              (jobNet client timeout st.net { domain := domain, ports := ps1 })
              { domain := domain, ports := ps2 }
      ∧ (jobBody client timeout st { domain := domain, ports := ps1 ++ ps2 }).net
        = jobNet client timeout
            (jobNet client timeout st.net { domain := domain, ports := ps1 })
            { domain := domain, ports := ps2 }
      ∧ (∀ (s : Int) (tr : List Event),
          (jobBody client timeout { status := s, net := st.net, trace := tr }
              { domain := domain, ports := ps1 }).trace
            = tr ++ jobEvents client timeout st.net { domain := domain, ports := ps1 }
          ∧ (jobBody client timeout { status := s, net := st.net, trace := tr }
              { domain := domain, ports := ps1 }).net
            = jobNet client timeout st.net { domain := domain, ports := ps1 })
      ∧ ((ps1 ++ ps2).map (fun p =>
            if HasPrefix domain "http" = true then domain ++ ":" ++ p
            else "https://" ++ domain ++ ":" ++ p)).Sublist
          (probedURLs
            (jobEvents client timeout st.net { domain := domain, ports := ps1 ++ ps2 })) := by
  have h1 := portsFold_eq client timeout domain (ps1 ++ ps2) st
  have h2 := jobEvents_append client timeout domain ps1 ps2 st.net
  refine ⟨?_, ?_, ?_, probedURLs_first client timeout domain (ps1 ++ ps2) st.net⟩
  · rw [h1.1, h2.1, List.append_assoc]
  · rw [h1.2, h2.2]
  · intro s tr
    exact portsFold_eq client timeout domain ps1 { status := s, net := st.net, trace := tr }

/-- C6: when every probe gives `0`, a worker prints nothing, however many jobs it is
given and however often the same job comes; and on any network, a printed line
directly follows a probe, carries the URL of that probe and the status that
`isAlive` returned for it, and that status is not `0`. -/
theorem no_line_without_nonzero_status (client : Client σ ε) (timeout : Duration)
    (net : σ) (jobs : List job) :
    ((∀ (n : σ) (url : String), (isAlive client n url timeout).1 = 0) →
        printed (worker client timeout net jobs).trace = [])
      ∧ ∀ (pre post : List Event) (text : String),
          (worker client timeout net jobs).trace = pre ++ Event.print text :: post →
          ∃ (pre1 : List Event) (url : String) (status : Int),
            pre = pre1 ++ [Event.probe url status]
              ∧ status ≠ 0
              ∧ text = url ++ " " ++ formatInt status ++ "\n"
              ∧ ∃ n : σ, (isAlive client n url timeout).1 = status := by
  obtain ⟨L, hL, hrec⟩ := worker_trace_reported client timeout jobs net
  constructor
  · intro hdead
    rw [hL, printed_flatMap_reported]
    have hnone : L.filter (fun us => us.2 ≠ 0) = [] := by
      rw [List.filter_eq_nil_iff]
      intro us hus
      obtain ⟨n, hn⟩ := hrec us hus
      simp [← hn, hdead n us.1]
    rw [hnone]
    rfl
  · intro pre post text htr
    rw [hL] at htr
    obtain ⟨pre1, us, hus, hpre, hne, htext⟩ := print_in_flatMap_reported L pre post text htr
    exact ⟨pre1, us.1, us.2, hpre, hne, htext, hrec us hus⟩

/-- C6, on a network where every request fails: the same job twice, with a scheme
and without, prints nothing. -/
theorem no_line_without_nonzero_status_witness :
    (∀ (n : Unit) (url : String), (isAlive deadClient n url 3000000000).1 = 0)
      ∧ printed (worker deadClient 3000000000 ()
          [{ domain := "example.com", ports := ["443", "80"] },
           { domain := "example.com", ports := ["443", "80"] },
           { domain := "https://example.com", ports := ["443"] }]).trace = [] :=
  ⟨fun _ _ => rfl,
   (no_line_without_nonzero_status deadClient 3000000000 ()
      [{ domain := "example.com", ports := ["443", "80"] },
       { domain := "example.com", ports := ["443", "80"] },
       { domain := "https://example.com", ports := ["443"] }]).1 (fun _ _ => rfl)⟩

/-- C8: the trace of a worker is its probes, each directly followed by its line when
the status is not `0`; so the text printed is, for each probe with a non-zero
status and in the same order, the URL given to the probe, one space, the status in
decimal and a newline, whichever branch printed it. -/
theorem printed_lines_format (client : Client σ ε) (timeout : Duration) (net : σ)
    (jobs : List job) :
    (worker client timeout net jobs).trace
        = (probes (worker client timeout net jobs).trace).flatMap
            (fun us => reported us.1 us.2)
      ∧ printed (worker client timeout net jobs).trace
        = ((probes (worker client timeout net jobs).trace).filter (fun us => us.2 ≠ 0)).map
            (fun us => us.1 ++ " " ++ formatInt us.2 ++ "\n") := by
  obtain ⟨L, hL, _⟩ := worker_trace_reported client timeout jobs net
  have hp : probes (worker client timeout net jobs).trace = L := by
    rw [hL, probes_flatMap_reported]
  rw [hp]
  exact ⟨hL, by rw [hL, printed_flatMap_reported]⟩

/-- C8, on the three printing branches: a domain with a scheme, a bare domain
answering on https, a bare domain answering on http only. -/
theorem printed_lines_format_witness :
    printed (worker (constClient 404) 3000000000 ()
        [{ domain := "http://foo.test", ports := ["8443"] },
         { domain := "example.com", ports := ["443"] }]).trace
        = ["http://foo.test:8443 404\n", "https://example.com:443 404\n"]
      ∧ printed (worker (mockClient "http://example.com:80" 301) 3000000000 ()
          [{ domain := "example.com", ports := ["80"] }]).trace
        = ["http://example.com:80 301\n"] :=
  ⟨(printed_lines_format (constClient 404) 3000000000 ()
      [{ domain := "http://foo.test", ports := ["8443"] },
       { domain := "example.com", ports := ["443"] }]).2.trans (by decide),
   (printed_lines_format (mockClient "http://example.com:80" 301) 3000000000 ()
      [{ domain := "example.com", ports := ["80"] }]).2.trans (by decide)⟩

/-- C10: a job with `n` ports prints at most `n` lines, one per port at most and in
the order of the port list, and makes between `n` and `2n` probes: exactly `n` on a
domain that begins with `http`, and `n` plus the number of https probes that gave
`0` on any other domain; on such a domain a port whose https probe gives a
non-zero status prints the https line only, whatever the http URL would give. -/
theorem lines_and_probes_per_port (client : Client σ ε) (timeout : Duration)
    (domain : String) (ports : List String) (net : σ) :
    (printed (jobEvents client timeout net { domain := domain, ports := ports })).length
        ≤ ports.length
      ∧ ports.length
        ≤ (probedURLs (jobEvents client timeout net { domain := domain, ports := ports })).length
      ∧ (probedURLs (jobEvents client timeout net { domain := domain, ports := ports })).length
        ≤ 2 * ports.length
      ∧ (HasPrefix domain "http" = true →
          (probedURLs (jobEvents client timeout net { domain := domain, ports := ports })).length
            = ports.length)
      ∧ (HasPrefix domain "http" = false →
          (probedURLs (jobEvents client timeout net { domain := domain, ports := ports })).length
            = ports.length
              + (jobEvents client timeout net { domain := domain, ports := ports }).countP
                  isFailedHttps)
      ∧ (∃ qs : List String, qs.Sublist ports
          ∧ List.Forall₂
              (fun q text => ∃ (url : String) (status : Int),
                status ≠ 0 ∧ text = url ++ " " ++ formatInt status ++ "\n"
                  ∧ (url = domain ++ ":" ++ q ∨ url = "https://" ++ domain ++ ":" ++ q
                      ∨ url = "http://" ++ domain ++ ":" ++ q))
              qs (printed (jobEvents client timeout net { domain := domain, ports := ports })))
      ∧ (HasPrefix domain "http" = false →
          ∀ (n : σ) (p : String),
            (isAlive client n ("https://" ++ domain ++ ":" ++ p) timeout).1 ≠ 0 →
            printed (jobEvents client timeout n { domain := domain, ports := [p] })
              = ["https://" ++ domain ++ ":" ++ p ++ " "
                  ++ formatInt (isAlive client n ("https://" ++ domain ++ ":" ++ p) timeout).1
                  ++ "\n"]) := by
  obtain ⟨c1, c2, c3, c4, c5⟩ := job_counts client timeout domain ports net
  refine ⟨c1, c2, c3, c4, c5, job_lines_in_port_order client timeout domain ports net, ?_⟩
  intro hd n p hs
  rw [jobEvents_cons, (portEvents_bare_https client timeout domain hd n p hs).1, jobEvents_nil]
  simp [printed]

/-- C10, on a bare domain with two ports: a server answering `200` on every URL
gives two probes and the two https lines; a server answering on
`http://example.com:80` only gives four probes, two of them failed https probes,
and one line. -/
theorem lines_and_probes_per_port_witness :
    HasPrefix "example.com" "http" = false
      ∧ printed (jobEvents (constClient 200) 3000000000 ()
          { domain := "example.com", ports := ["443"] })
        = ["https://example.com:443 200\n"]
      ∧ (probedURLs (jobEvents (mockClient "http://example.com:80" 200) 3000000000 ()
          { domain := "example.com", ports := ["443", "80"] })).length = 2 + 2
      ∧ printed (jobEvents (mockClient "http://example.com:80" 200) 3000000000 ()
          { domain := "example.com", ports := ["443", "80"] })
        = ["http://example.com:80 200\n"] :=
  ⟨by decide,
   ((lines_and_probes_per_port (constClient 200) 3000000000 "example.com" ["443"] ()).2.2.2.2.2.2
      (by decide) () "443" (by decide)).trans (by decide),
   ((lines_and_probes_per_port (mockClient "http://example.com:80" 200) 3000000000
      "example.com" ["443", "80"] ()).2.2.2.2.1 (by decide)).trans (by decide),
   by decide⟩

/-- C4: the hostname `httpbin.org` carries no scheme, yet it begins with the four
characters `http`, so the worker takes the branch for domains with a scheme: it
probes `httpbin.org:443` and never `https://httpbin.org:443` nor
`http://httpbin.org:443`, and a server that answers on the https URL is missed. -/
theorem bare_hostname_httpbin_takes_scheme_branch :
    HasPrefix "httpbin.org" "http://" = false
      ∧ HasPrefix "httpbin.org" "https://" = false
      ∧ HasPrefix "httpbin.org" "http" = true
      ∧ (worker (mockClient "https://httpbin.org:443" 200) 3000000000 ()
          [{ domain := "httpbin.org", ports := ["443"] }]).trace
        = [Event.probe "httpbin.org:443" 0]
      ∧ (worker (constClient 200) 3000000000 ()
          [{ domain := "httpbin.org", ports := ["443"] }]).trace
        = [Event.probe "httpbin.org:443" 200, Event.print "httpbin.org:443 200\n"] := by
  decide

end WorkerClaims

end Prober
